import Mathlib

/-!
Shallow embedding of `auto_light.py` (Klipper_Auto_Light): the schedule
table (parsing, sorting, active-window resolution) and the reconciliation
loop (timer tick, manual check, enable/disable commands), with theorems
settling the specification claims.

Python floats are modelled as rationals (ℚ); Python exceptions that the
code converts into `config.error` are modelled as `none`/error results.
-/

namespace AutoLight

/-- Python's `str.split(sep)` for a single-character separator, on the
character list of the string.  `"".split(c) = [""]`, and separators at the
ends produce empty fragments, exactly as in Python. -/
def splitOnChar (sep : Char) : List Char → List (List Char)
  | [] => [[]]
  | c :: rest =>
    let r := splitOnChar sep rest
    if c = sep then
      [] :: r
    else
      match r with
      | [] => [[c]]
      | g :: gs => (c :: g) :: gs

/-- The ASCII whitespace characters stripped by Python's `int()` before
parsing (space, tab, newline, carriage return, vertical tab, form feed). -/
def isPySpace (c : Char) : Bool :=
  c = ' ' || c = '\t' || c = '\n' || c = '\r' || c = '\x0b' || c = '\x0c'

/-- Strip leading and trailing whitespace, as `int()` does. -/
def pyStrip (cs : List Char) : List Char :=
  ((cs.dropWhile isPySpace).reverse.dropWhile isPySpace).reverse

/-- Acceptor for the tail of Python's integer-literal digit grammar
`digit (["_"] digit)*`: after an initial digit, digits may continue,
optionally separated by single underscores standing between two digits. -/
def pyDigitsRest : List Char → Bool
  | [] => true
  | '_' :: c :: rest => c.isDigit && pyDigitsRest rest
  | c :: rest => c.isDigit && pyDigitsRest rest

/-- Acceptor for Python's unsigned integer-literal digit grammar: nonempty,
starts with a digit, continues per `pyDigitsRest`. -/
def pyIntDigits (cs : List Char) : Bool :=
  match cs with
  | [] => false
  | c :: rest => c.isDigit && pyDigitsRest rest

/-- Numeric value of an accepted digit token, underscores skipped. -/
def digitsValue (cs : List Char) : Nat :=
  (cs.filter (fun c => c.isDigit)).foldl (fun n c => 10 * n + (c.toNat - 48)) 0

/-- Python `int(token)` as used on the hour/minute tokens: surrounding
whitespace is stripped, then an optional sign followed by decimal digits
with single underscores allowed between digits.  Not modelled: non-ASCII
digits and whitespace.  A token `int()` rejects yields `none`, which the
caller turns into a `ConfigError`. -/
def pyInt (cs : List Char) : Option Int :=
  let t := pyStrip cs
  match t with
  | '-' :: rest => if pyIntDigits rest then some (-(digitsValue rest : Int)) else none
  | '+' :: rest => if pyIntDigits rest then some ((digitsValue rest : Int)) else none
  | _ => if pyIntDigits t then some ((digitsValue t : Int)) else none

/-- Value of an all-digit fractional part as a rational in `[0, 1)`. -/
def fracVal (cs : List Char) : ℚ :=
  ((cs.foldl (fun n c => 10 * n + (c.toNat - 48)) 0 : Nat) : ℚ) / (10 ^ cs.length)

/-- Python `float(token)` as used on the brightness token.  Modelled subset:
optional sign, decimal digits with at most one decimal point and at least
one digit in total ("1", "0.5", "1.", ".5").  Exponents, "inf"/"nan",
underscores and surrounding whitespace are not modelled; none occur in
schedule strings. -/
def pyFloat (cs : List Char) : Option ℚ :=
  let signBody : ℚ × List Char :=
    match cs with
    | '-' :: rest => ((-1 : ℚ), rest)
    | '+' :: rest => ((1 : ℚ), rest)
    | _ => ((1 : ℚ), cs)
  match splitOnChar '.' signBody.2 with
  | [ip] =>
    if ip ≠ [] ∧ ip.all (fun c => c.isDigit) then
      some (signBody.1 * ((ip.foldl (fun n c => 10 * n + (c.toNat - 48)) 0 : Nat) : ℚ))
    else none
  | [ip, fp] =>
    if ip ++ fp ≠ [] ∧ ip.all (fun c => c.isDigit) ∧ fp.all (fun c => c.isDigit) then
      some (signBody.1 * (((ip.foldl (fun n c => 10 * n + (c.toNat - 48)) 0 : Nat) : ℚ) + fracVal fp))
    else none
  | _ => none

/-- One schedule window, as stored in `self.schedules` (a dict in the
Python source).  Hours and minutes are Python ints (unbounded), brightness
a float modelled as ℚ. -/
structure Schedule where
  id : Nat
  start_hour : Int
  start_min : Int
  end_hour : Int
  end_min : Int
  brightness : ℚ
  enabled : Bool
  name : String
deriving DecidableEq, Repr

/-- Minutes from midnight of the start time (`_get_minutes_from_midnight`). -/
def start_minutes (s : Schedule) : Int :=
  s.start_hour * 60 + s.start_min

/-- Minutes from midnight of the end time (`_get_minutes_from_midnight`). -/
def end_minutes (s : Schedule) : Int :=
  s.end_hour * 60 + s.end_min

/-- The per-schedule test inside the `_find_active_schedule` loop:
midnight-crossing windows (`start_minutes > end_minutes`) match when
`current_minutes >= start_minutes or current_minutes < end_minutes`,
same-day windows when `start_minutes <= current_minutes < end_minutes`. -/
def schedule_matches (s : Schedule) (current_minutes : Int) : Bool :=
  if start_minutes s > end_minutes s then
    decide (current_minutes ≥ start_minutes s) || decide (current_minutes < end_minutes s)
  else
    decide (start_minutes s ≤ current_minutes) && decide (current_minutes < end_minutes s)

/-- Parsing of one `schedule_i` option string in `AutoLight.__init__`:
split on `=` (exactly two parts), the time part on `-` (exactly two parts),
each time token on `:` (exactly two parts), hour/minute via `int`,
brightness via `float` with the range check `0.0 <= brightness <= 1.0`.
Any failure raises, which `__init__` converts into a `ConfigError`;
modelled as `none`.  The window is created enabled, named "Schedule i",
with id the config slot number `i`. -/
def parse_schedule (i : Nat) (str : String) : Option Schedule :=
  match splitOnChar '=' str.toList with
  | [time_part, brightness_part] =>
    match splitOnChar '-' time_part with
    | [start_time, end_time] =>
      match splitOnChar ':' start_time, splitOnChar ':' end_time with
      | [sh, sm], [eh, em] =>
        match pyInt sh, pyInt sm, pyInt eh, pyInt em, pyFloat brightness_part with
        | some sh', some sm', some eh', some em', some b =>
          if 0 ≤ b ∧ b ≤ 1 then
            some { id := i, start_hour := sh', start_min := sm',
                   end_hour := eh', end_min := em', brightness := b,
                   enabled := true, name := "Schedule " ++ toString i }
          else none
        | _, _, _, _, _ => none
      | _, _ => none
    | _ => none
  | _ => none

/-- The `for i in range(1, 6)` loop of `__init__`: slots with no config
value are skipped, a present slot that fails to parse aborts the load
(`ConfigError`), parsed windows are appended in slot order. -/
def loadSlots (cfg : Nat → Option String) : List Nat → Option (List Schedule)
  | [] => some []
  | i :: rest =>
    match cfg i with
    | none => loadSlots cfg rest
    | some str =>
      match parse_schedule i str with
      | none => none
      | some w =>
        match loadSlots cfg rest with
        | none => none
        | some ws => some (w :: ws)

/-- Stable insertion used to model `self.schedules.sort(key=...)`:
the inserted element comes from earlier in the input list, so it passes
elements with a strictly smaller key and stops before the first element
with an equal or larger key. -/
def insertByStart (x : Schedule) : List Schedule → List Schedule
  | [] => [x]
  | y :: ys =>
    if start_minutes y < start_minutes x then
      y :: insertByStart x ys
    else
      x :: y :: ys

/-- The sort of `__init__`: schedules are sorted by start minutes.
Python's `list.sort` is a stable sort by key; stable sorts are extensionally
unique, so it is modelled by stable insertion sort on the same key. -/
def sortSchedules : List Schedule → List Schedule
  | [] => []
  | x :: xs => insertByStart x (sortSchedules xs)

/-- Whole-table construction in `AutoLight.__init__`: load slots 1..5,
reject an empty table (`ConfigError`), then sort by start minutes. -/
def load_schedules (cfg : Nat → Option String) : Option (List Schedule) :=
  match loadSlots cfg [1, 2, 3, 4, 5] with
  | none => none
  | some [] => none
  | some ws => some (sortSchedules ws)

/-- The slot numbers among 1..5 for which the configuration defines a
schedule string. -/
def definedSlots (cfg : Nat → Option String) : List Nat :=
  [1, 2, 3, 4, 5].filter (fun i => (cfg i).isSome)

/-- The candidate scan of `_find_active_schedule`: first candidate whose
range matches, else the first candidate (`enabled_schedules[0]`), else
`none` for an empty candidate list. -/
def select_from (cands : List Schedule) (current_minutes : Int) : Option Schedule :=
  match cands.find? (fun s => schedule_matches s current_minutes) with
  | some w => some w
  | none => cands.head?

/-- Resolution, `_find_active_schedule(current_hour, current_min)`: returns the chosen
window together with the (possibly self-healed) schedule table, since the
zero-enabled branch mutates `self.schedules[0]['enabled']`.  On an empty
table Python would raise `IndexError` at `self.schedules[0]`; that state is
unreachable because construction requires at least one schedule, and is
modelled as `(none, [])`. -/
def find_active_schedule (schedules : List Schedule) (current_hour current_min : Nat) :
    Option Schedule × List Schedule :=
  let current_minutes : Int := ((current_hour * 60 + current_min : Nat) : Int)
  let enabled_schedules := schedules.filter (fun s => s.enabled)
  if enabled_schedules.isEmpty then
    match schedules with
    | [] => (none, [])
    | s0 :: rest =>
      let s0' := { s0 with enabled := true }
      (select_from [s0'] current_minutes, s0' :: rest)
  else
    (select_from enabled_schedules current_minutes, schedules)

/-- The mutable state of the reconciliation loop: the master switch
`self.enabled`, the schedule table, `self.last_brightness`,
`self.current_schedule_id`, and whether a reactor timer is registered
(`self.timer is not None`). -/
structure LoopState where
  enabled : Bool
  schedules : List Schedule
  last_brightness : Option ℚ
  current_schedule_id : Option Nat
  timerRunning : Bool
deriving DecidableEq, Repr

/-- One actuation request as dispatched to `_set_brightness`: the target
level, the window name, and the wall-clock time.  `_set_brightness` emits
`SET_PIN PIN=<pin> VALUE=<level:.3f>` through the gcode interface (the
gcode handle exists whenever callbacks run after `_handle_ready`). -/
structure Actuation where
  brightness : ℚ
  schedule_name : String
  hour : Nat
  minute : Nat
deriving DecidableEq, Repr

/-- Result of one `_timer_callback` invocation: the actuation dispatched
(if any), whether a next wake-up time is returned (`false` models returning
`self.reactor.NEVER`), and the state after the tick. -/
structure TickResult where
  actuation : Option Actuation
  reschedule : Bool
  state : LoopState
deriving DecidableEq, Repr

/-- The current-level fallback chain of `_timer_callback`: the value read
from the pin object if the read succeeds, else the cached
`self.last_brightness`, else `0`. -/
def observed_level (pinRead : Option ℚ) (cached : Option ℚ) : ℚ :=
  match pinRead with
  | some v => v
  | none =>
    match cached with
    | some b => b
    | none => 0

/-- The tick, `_timer_callback(eventtime)`, parametrised by the wall-clock time and
the outcome of the best-effort pin read.  If the master switch is off it
returns `NEVER` at once; otherwise it resolves the active window, compares
the target level with the observed level under the fixed `0.01` tolerance,
dispatches at most one actuation, and always returns a next wake time. -/
def timer_callback (st : LoopState) (current_hour current_min : Nat)
    (pinRead : Option ℚ) : TickResult :=
  if !st.enabled then
    { actuation := none, reschedule := false, state := st }
  else
    let fa := find_active_schedule st.schedules current_hour current_min
    let st1 : LoopState := { st with schedules := fa.2 }
    match fa.1 with
    | none => { actuation := none, reschedule := true, state := st1 }
    | some active =>
      let current := observed_level pinRead st.last_brightness
      let diff := |active.brightness - current|
      if diff > 1 / 100 then
        { actuation := some { brightness := active.brightness,
                              schedule_name := active.name,
                              hour := current_hour, minute := current_min },
          reschedule := true,
          state := { st1 with last_brightness := some active.brightness,
                              current_schedule_id := some active.id } }
      else
        { actuation := none, reschedule := true, state := st1 }

/-- The manual check, `_manual_check()`: resolve the active window and, unconditionally,
dispatch an actuation for its level and update `last_brightness` and
`current_schedule_id` — no tolerance comparison and no pin read. -/
def manual_check (st : LoopState) (current_hour current_min : Nat) :
    Option Actuation × LoopState :=
  let fa := find_active_schedule st.schedules current_hour current_min
  match fa.1 with
  | some active =>
    (some { brightness := active.brightness, schedule_name := active.name,
            hour := current_hour, minute := current_min },
     { st with schedules := fa.2, last_brightness := some active.brightness,
               current_schedule_id := some active.id })
  | none => (none, { st with schedules := fa.2 })

/-- Observable outcome of a schedule enable/disable command (the
`respond_info` string it produces). -/
inductive ScheduleCmdResult where
  | invalidId
  | enabledOk (nm : String)
  | alreadyDisabled (nm : String)
  | disabledOk (nm : String)
  | cannotDisableLast
  | notFound (schedule_id : Nat)
deriving DecidableEq, Repr

/-- The lookup loop of `cmd_AUTO_LIGHT_SCHEDULE_ENABLE`: first window with
the requested id is enabled; if none matches, "not found". -/
def enable_loop (schedule_id : Nat) : List Schedule → ScheduleCmdResult × List Schedule
  | [] => (.notFound schedule_id, [])
  | s :: rest =>
    if s.id = schedule_id then
      (.enabledOk s.name, { s with enabled := true } :: rest)
    else
      let r := enable_loop schedule_id rest
      (r.1, s :: r.2)

/-- Command `cmd_AUTO_LIGHT_SCHEDULE_ENABLE`: the ID argument is read with bounds 1..5 and
raises on an out-of-range id (caught and reported as an error); otherwise
the lookup loop runs. -/
def cmd_schedule_enable (schedules : List Schedule) (schedule_id : Nat) :
    ScheduleCmdResult × List Schedule :=
  if schedule_id < 1 ∨ 5 < schedule_id then
    (.invalidId, schedules)
  else
    enable_loop schedule_id schedules

/-- The lookup loop of `cmd_AUTO_LIGHT_SCHEDULE_DISABLE`: first window with
the requested id is disabled unless already disabled; if none matches,
"not found". -/
def disable_loop (schedule_id : Nat) : List Schedule → ScheduleCmdResult × List Schedule
  | [] => (.notFound schedule_id, [])
  | s :: rest =>
    if s.id = schedule_id then
      if s.enabled then
        (.disabledOk s.name, { s with enabled := false } :: rest)
      else
        (.alreadyDisabled s.name, s :: rest)
    else
      let r := disable_loop schedule_id rest
      (r.1, s :: r.2)

/-- Command `cmd_AUTO_LIGHT_SCHEDULE_DISABLE`: after the id-range check it counts
the enabled windows and refuses when the count is at most one — BEFORE
looking the id up; only then does the lookup loop run. -/
def cmd_schedule_disable (schedules : List Schedule) (schedule_id : Nat) :
    ScheduleCmdResult × List Schedule :=
  if schedule_id < 1 ∨ 5 < schedule_id then
    (.invalidId, schedules)
  else
    let enabled_count := (schedules.filter (fun s => s.enabled)).length
    if enabled_count ≤ 1 then
      (.cannotDisableLast, schedules)
    else
      disable_loop schedule_id schedules

/-- Loop start, `start_auto_check`: registers the reactor timer unless one is already
registered. -/
def start_auto_check (st : LoopState) : LoopState :=
  if st.timerRunning then st else { st with timerRunning := true }

/-- Loop stop, `stop_auto_check`: unregisters the reactor timer if one is registered. -/
def stop_auto_check (st : LoopState) : LoopState :=
  if st.timerRunning then { st with timerRunning := false } else st

/-- Command `cmd_AUTO_LIGHT_ENABLE`: sets the master switch and starts the timer. -/
def cmd_auto_light_enable (st : LoopState) : LoopState :=
  start_auto_check { st with enabled := true }

/-- Command `cmd_AUTO_LIGHT_DISABLE`: clears the master switch and stops the timer. -/
def cmd_auto_light_disable (st : LoopState) : LoopState :=
  stop_auto_check { st with enabled := false }

/-! ## Concrete fixtures

Window records used as concrete inputs by witnesses and counterexamples. -/

/-- A same-day window 07:00-14:00 at level 1.0, enabled, as slot 1 yields. -/
def w_day1 : Schedule :=
  { id := 1, start_hour := 7, start_min := 0, end_hour := 14, end_min := 0,
    brightness := 1, enabled := true, name := "Schedule 1" }

/-- A disabled early window 05:00-06:00, as slot 2 yields; sorts before
`w_late1_off`. -/
def w_early2_off : Schedule :=
  { id := 2, start_hour := 5, start_min := 0, end_hour := 6, end_min := 0,
    brightness := 1, enabled := false, name := "Schedule 2" }

/-- A disabled later window 10:00-12:00, as slot 1 yields. -/
def w_late1_off : Schedule :=
  { id := 1, start_hour := 10, start_min := 0, end_hour := 12, end_min := 0,
    brightness := 1, enabled := false, name := "Schedule 1" }

/-- An enabled evening window 14:00-19:00 at level 0.5, as slot 2 yields. -/
def w_eve2 : Schedule :=
  { id := 2, start_hour := 14, start_min := 0, end_hour := 19, end_min := 0,
    brightness := 1 / 2, enabled := true, name := "Schedule 2" }

/-- The window produced by slot 2 holding "07:00-14:00=1.0". -/
def w_day2 : Schedule :=
  { id := 2, start_hour := 7, start_min := 0, end_hour := 14, end_min := 0,
    brightness := 1, enabled := true, name := "Schedule 2" }

/-- The window produced by slot 1 holding "25:00-26:61=0.5": hour 25 and
minute 61 are stored unchecked. -/
def w_overflow : Schedule :=
  { id := 1, start_hour := 25, start_min := 0, end_hour := 26, end_min := 61,
    brightness := 1 / 2, enabled := true, name := "Schedule 1" }

/-- A configuration defining only `schedule_2`. -/
def cfg_slot2_only : Nat → Option String :=
  fun i => if i = 2 then some "07:00-14:00=1.0" else none

/-- A loop state with the master switch on and `w_day1` as the only window. -/
def st_run : LoopState :=
  { enabled := true, schedules := [w_day1], last_brightness := some 1,
    current_schedule_id := some 1, timerRunning := true }

/-- A loop state with the master switch off. -/
def st_off : LoopState :=
  { enabled := false, schedules := [w_day1], last_brightness := none,
    current_schedule_id := none, timerRunning := false }

/-! ## Helper lemmas -/

theorem select_from_singleton (x : Schedule) (m : Int) :
    select_from [x] m = some x := by
  unfold select_from
  by_cases h : schedule_matches x m = true
  · simp [List.find?, h]
  · simp [List.find?, h]

theorem select_from_ne_none (cands : List Schedule) (m : Int) (h : cands ≠ []) :
    ∃ w, select_from cands m = some w := by
  rcases cands with _ | ⟨c, cs⟩
  · exact absurd rfl h
  · unfold select_from
    cases hf : (c :: cs).find? (fun s => schedule_matches s m) with
    | none => exact ⟨c, by simp [hf]⟩
    | some w => exact ⟨w, by simp [hf]⟩

theorem select_from_mem {cands : List Schedule} {m : Int} {w : Schedule}
    (h : select_from cands m = some w) : w ∈ cands := by
  unfold select_from at h
  cases hf : cands.find? (fun s => schedule_matches s m) with
  | none =>
    rw [hf] at h
    simp only at h
    rcases cands with _ | ⟨c, cs⟩
    · simp at h
    · simp at h
      simp [h]
  | some w' =>
    rw [hf] at h
    simp only at h
    cases h
    exact List.mem_of_find?_eq_some hf

theorem select_from_no_match {cands : List Schedule} {m : Int}
    (h : ∀ s ∈ cands, schedule_matches s m = false) :
    select_from cands m = cands.head? := by
  unfold select_from
  have hf : cands.find? (fun s => schedule_matches s m) = none := by
    rw [List.find?_eq_none]
    intro x hx
    simp [h x hx]
  rw [hf]

theorem find_active_of_filter_cons {schedules : List Schedule} {e : Schedule}
    {es : List Schedule} (current_hour current_min : Nat)
    (hfe : schedules.filter (fun s => s.enabled) = e :: es) :
    find_active_schedule schedules current_hour current_min =
      (select_from (e :: es) ((current_hour * 60 + current_min : Nat) : Int), schedules) := by
  unfold find_active_schedule
  simp [hfe]

theorem find_active_of_filter_nil {s0 : Schedule} {rest : List Schedule}
    (current_hour current_min : Nat)
    (hfe : (s0 :: rest).filter (fun s => s.enabled) = []) :
    find_active_schedule (s0 :: rest) current_hour current_min =
      (some { s0 with enabled := true }, { s0 with enabled := true } :: rest) := by
  unfold find_active_schedule
  simp [hfe, select_from_singleton]

theorem find_active_total (schedules : List Schedule) (current_hour current_min : Nat)
    (hne : schedules ≠ []) :
    ∃ w, (find_active_schedule schedules current_hour current_min).1 = some w := by
  cases hfe : schedules.filter (fun s => s.enabled) with
  | nil =>
    rcases schedules with _ | ⟨s0, rest⟩
    · exact absurd rfl hne
    · exact ⟨{ s0 with enabled := true }, by
        rw [find_active_of_filter_nil current_hour current_min hfe]⟩
  | cons e es =>
    obtain ⟨w, hw⟩ := select_from_ne_none (e :: es)
      ((current_hour * 60 + current_min : Nat) : Int) (by simp)
    exact ⟨w, by rw [find_active_of_filter_cons current_hour current_min hfe]; exact hw⟩

theorem enable_loop_not_found {schedule_id : Nat} {l : List Schedule}
    (h : ∀ s ∈ l, s.id ≠ schedule_id) :
    enable_loop schedule_id l = (.notFound schedule_id, l) := by
  induction l with
  | nil => rfl
  | cons s rest ih =>
    have hs : ¬ s.id = schedule_id := h s (by simp)
    have ih' := ih (fun t ht => h t (by simp [ht]))
    simp [enable_loop, hs, ih']

theorem disable_loop_not_found {schedule_id : Nat} {l : List Schedule}
    (h : ∀ s ∈ l, s.id ≠ schedule_id) :
    disable_loop schedule_id l = (.notFound schedule_id, l) := by
  induction l with
  | nil => rfl
  | cons s rest ih =>
    have hs : ¬ s.id = schedule_id := h s (by simp)
    have ih' := ih (fun t ht => h t (by simp [ht]))
    simp [disable_loop, hs, ih']

theorem disable_loop_found {l₁ l₂ : List Schedule} {w : Schedule} (schedule_id : Nat)
    (hpref : ∀ s ∈ l₁, s.id ≠ schedule_id) (hwid : w.id = schedule_id)
    (hwen : w.enabled = true) :
    disable_loop schedule_id (l₁ ++ w :: l₂) =
      (.disabledOk w.name, l₁ ++ { w with enabled := false } :: l₂) := by
  induction l₁ with
  | nil => simp [disable_loop, hwid, hwen]
  | cons s rest ih =>
    have hs : ¬ s.id = schedule_id := hpref s (by simp)
    have ih' := ih (fun t ht => hpref t (by simp [ht]))
    simp [disable_loop, hs, ih']

theorem ids_nodup_split {l₁ l₂ : List Schedule} {w : Schedule}
    (h : ((l₁ ++ w :: l₂).map (fun s => s.id)).Nodup) :
    (∀ s ∈ l₁, s.id ≠ w.id) ∧ (∀ s ∈ l₂, s.id ≠ w.id) := by
  simp only [List.map_append, List.map_cons, List.nodup_append, List.nodup_cons] at h
  obtain ⟨-, ⟨hnotin, -⟩, hdisj⟩ := h
  constructor
  · intro s hs heq
    exact hdisj (heq ▸ List.mem_map_of_mem _ hs) (List.mem_cons_self _ _)
  · intro s hs heq
    exact hnotin (heq ▸ List.mem_map_of_mem _ hs)

theorem mem_insertByStart {z x : Schedule} {l : List Schedule} :
    z ∈ insertByStart x l ↔ z = x ∨ z ∈ l := by
  induction l with
  | nil => simp [insertByStart]
  | cons y ys ih =>
    by_cases h : start_minutes y < start_minutes x
    · simp only [insertByStart, if_pos h, List.mem_cons, ih]
      tauto
    · simp only [insertByStart, if_neg h, List.mem_cons]

theorem insertByStart_perm (x : Schedule) (l : List Schedule) :
    (insertByStart x l).Perm (x :: l) := by
  induction l with
  | nil => exact List.Perm.refl _
  | cons y ys ih =>
    by_cases h : start_minutes y < start_minutes x
    · simp only [insertByStart, if_pos h]
      exact (ih.cons y).trans (List.Perm.swap x y ys)
    · simp only [insertByStart, if_neg h]
      exact List.Perm.refl _

theorem sortSchedules_perm (l : List Schedule) : (sortSchedules l).Perm l := by
  induction l with
  | nil => exact List.Perm.refl _
  | cons x xs ih =>
    exact (insertByStart_perm x (sortSchedules xs)).trans (ih.cons x)

theorem insertByStart_pairwise {x : Schedule} {l : List Schedule}
    (hl : l.Pairwise (fun a b => start_minutes a < start_minutes b ∨
      (start_minutes a = start_minutes b ∧ a.id < b.id)))
    (hx : ∀ y ∈ l, start_minutes x = start_minutes y → x.id < y.id) :
    (insertByStart x l).Pairwise (fun a b => start_minutes a < start_minutes b ∨
      (start_minutes a = start_minutes b ∧ a.id < b.id)) := by
  induction l with
  | nil => simp [insertByStart]
  | cons y ys ih =>
    rcases List.pairwise_cons.mp hl with ⟨hy, hys⟩
    by_cases h : start_minutes y < start_minutes x
    · simp only [insertByStart, if_pos h]
      refine List.pairwise_cons.mpr ⟨?_, ih hys (fun z hz => hx z (by simp [hz]))⟩
      intro z hz
      rcases mem_insertByStart.mp hz with rfl | hz'
      · exact Or.inl h
      · exact hy z hz'
    · simp only [insertByStart, if_neg h]
      have hxy : start_minutes x ≤ start_minutes y := not_lt.mp h
      refine List.pairwise_cons.mpr ⟨?_, hl⟩
      intro z hz
      rcases List.mem_cons.mp hz with rfl | hz'
      · rcases lt_or_eq_of_le hxy with hlt | heq
        · exact Or.inl hlt
        · exact Or.inr ⟨heq, hx z (by simp) heq⟩
      · rcases hy z hz' with hlt | ⟨heq, hid⟩
        · exact Or.inl (lt_of_le_of_lt hxy hlt)
        · rcases lt_or_eq_of_le hxy with hlt2 | heq2
          · exact Or.inl (heq ▸ hlt2)
          · exact Or.inr ⟨heq2.trans heq, hx z (by simp [hz']) (heq2.trans heq)⟩

theorem sortSchedules_pairwise {l : List Schedule}
    (hl : l.Pairwise (fun a b => a.id < b.id)) :
    (sortSchedules l).Pairwise (fun a b => start_minutes a < start_minutes b ∨
      (start_minutes a = start_minutes b ∧ a.id < b.id)) := by
  induction l with
  | nil => simp [sortSchedules]
  | cons x xs ih =>
    rcases List.pairwise_cons.mp hl with ⟨hx, hxs⟩
    exact insertByStart_pairwise (ih hxs)
      (fun y hy _ => hx y ((sortSchedules_perm xs).mem_iff.mp hy))

theorem parse_schedule_id {i : Nat} {str : String} {w : Schedule}
    (h : parse_schedule i str = some w) : w.id = i := by
  unfold parse_schedule at h
  repeat split at h
  all_goals simp_all
  subst h
  rfl

theorem loadSlots_map_id {cfg : Nat → Option String} {slots : List Nat}
    {ws : List Schedule} (h : loadSlots cfg slots = some ws) :
    ws.map (fun s => s.id) = slots.filter (fun i => (cfg i).isSome) := by
  induction slots generalizing ws with
  | nil =>
    simp only [loadSlots, Option.some.injEq] at h
    subst h
    rfl
  | cons i rest ih =>
    unfold loadSlots at h
    split at h
    · rename_i hcfg
      simp [List.filter_cons, hcfg, ih h]
    · rename_i str hcfg
      split at h
      · exact absurd h (by simp)
      · rename_i w hp
        split at h
        · exact absurd h (by simp)
        · rename_i ws' hrest
          simp only [Option.some.injEq] at h
          subst h
          simp [List.filter_cons, hcfg, parse_schedule_id hp, ih hrest]

/-! ## Claim theorems -/

/-- Claim C2: a window is active at `(hour, minute)` exactly when, with
`nowMinutes = hour*60 + minute`: for a same-day window
(`start_minutes ≤ end_minutes`) `start_minutes ≤ nowMinutes < end_minutes`
(start inclusive, end exclusive), and for a midnight-crossing window
(`start_minutes > end_minutes`) `nowMinutes ≥ start_minutes` or
`nowMinutes < end_minutes`. -/
theorem schedule_window_semantics (s : Schedule) (hour minute : Nat)
    (hen : s.enabled = true) (hh : hour ≤ 23) (hm : minute ≤ 59) :
    (schedule_matches s ((hour * 60 + minute : Nat) : Int) = true ↔
      (if start_minutes s ≤ end_minutes s then
        start_minutes s ≤ ((hour * 60 + minute : Nat) : Int) ∧
          ((hour * 60 + minute : Nat) : Int) < end_minutes s
      else
        ((hour * 60 + minute : Nat) : Int) ≥ start_minutes s ∨
          ((hour * 60 + minute : Nat) : Int) < end_minutes s)) := by
  by_cases h : start_minutes s ≤ end_minutes s
  · have h' : ¬ (start_minutes s > end_minutes s) := not_lt.mpr h
    simp [schedule_matches, h, h']
  · have h' : start_minutes s > end_minutes s := not_le.mp h
    simp [schedule_matches, h, h']

theorem schedule_window_semantics_witness :
    (({ id := 1, start_hour := 7, start_min := 0, end_hour := 14, end_min := 0,
        brightness := 1, enabled := true, name := "Schedule 1" } : Schedule).enabled = true ∧
      7 ≤ 23 ∧ 0 ≤ 59) ∧
    (schedule_matches
        { id := 1, start_hour := 7, start_min := 0, end_hour := 14, end_min := 0,
          brightness := 1, enabled := true, name := "Schedule 1" }
        ((7 * 60 + 0 : Nat) : Int) = true ↔
      (if start_minutes
            { id := 1, start_hour := 7, start_min := 0, end_hour := 14, end_min := 0,
              brightness := 1, enabled := true, name := "Schedule 1" } ≤
          end_minutes
            { id := 1, start_hour := 7, start_min := 0, end_hour := 14, end_min := 0,
              brightness := 1, enabled := true, name := "Schedule 1" } then
        start_minutes
            { id := 1, start_hour := 7, start_min := 0, end_hour := 14, end_min := 0,
              brightness := 1, enabled := true, name := "Schedule 1" } ≤
            ((7 * 60 + 0 : Nat) : Int) ∧
          ((7 * 60 + 0 : Nat) : Int) <
            end_minutes
              { id := 1, start_hour := 7, start_min := 0, end_hour := 14, end_min := 0,
                brightness := 1, enabled := true, name := "Schedule 1" }
      else
        ((7 * 60 + 0 : Nat) : Int) ≥
            start_minutes
              { id := 1, start_hour := 7, start_min := 0, end_hour := 14, end_min := 0,
                brightness := 1, enabled := true, name := "Schedule 1" } ∨
          ((7 * 60 + 0 : Nat) : Int) <
            end_minutes
              { id := 1, start_hour := 7, start_min := 0, end_hour := 14, end_min := 0,
                brightness := 1, enabled := true, name := "Schedule 1" })) :=
  ⟨⟨rfl, by decide, by decide⟩,
    schedule_window_semantics _ 7 0 rfl (by decide) (by decide)⟩

/-- Claim C1: for every table accepted at construction (nonempty, sorted by
start minutes, levels in `[0,1]`) and every in-range `(hour, minute)`,
`_find_active_schedule` returns a window (coverage is total); and when no
enabled window's range contains the current minutes-of-day, it returns the
first enabled window in table order, which is an earliest-starting enabled
window. -/
theorem resolve_total_and_gap_default (schedules : List Schedule) (hour minute : Nat)
    (hne : schedules ≠ [])
    (hsorted : schedules.Pairwise (fun a b => start_minutes a ≤ start_minutes b))
    (hlev : ∀ s ∈ schedules, 0 ≤ s.brightness ∧ s.brightness ≤ 1)
    (hh : hour ≤ 23) (hm : minute ≤ 59) :
    (∃ w, (find_active_schedule schedules hour minute).1 = some w) ∧
    (∀ e es, schedules.filter (fun s => s.enabled) = e :: es →
      (∀ s ∈ schedules.filter (fun s => s.enabled),
          schedule_matches s ((hour * 60 + minute : Nat) : Int) = false) →
        (find_active_schedule schedules hour minute).1 = some e ∧
        ∀ s ∈ schedules.filter (fun s => s.enabled), start_minutes e ≤ start_minutes s) := by
  constructor
  · exact find_active_total schedules hour minute hne
  · intro e es hfe hnom
    constructor
    · rw [find_active_of_filter_cons hour minute hfe]
      have hno := @select_from_no_match (e :: es) ((hour * 60 + minute : Nat) : Int)
        (by rw [← hfe]; exact hnom)
      show select_from (e :: es) ((hour * 60 + minute : Nat) : Int) = some e
      rw [hno]
      rfl
    · have hp : (schedules.filter (fun s => s.enabled)).Pairwise
          (fun a b => start_minutes a ≤ start_minutes b) := hsorted.filter _
      rw [hfe] at hp
      rw [hfe]
      intro s hs
      rcases List.mem_cons.mp hs with h | h
      · exact le_of_eq (congrArg start_minutes h.symm)
      · exact (List.pairwise_cons.mp hp).1 s h

theorem resolve_total_and_gap_default_witness :
    (([w_day1] ≠ []) ∧
      ([w_day1].Pairwise (fun a b => start_minutes a ≤ start_minutes b)) ∧
      (∀ s ∈ [w_day1], 0 ≤ s.brightness ∧ s.brightness ≤ 1) ∧
      3 ≤ 23 ∧ 5 ≤ 59) ∧
    ((∃ w, (find_active_schedule [w_day1] 3 5).1 = some w) ∧
      (∀ e es, [w_day1].filter (fun s => s.enabled) = e :: es →
        (∀ s ∈ [w_day1].filter (fun s => s.enabled),
            schedule_matches s ((3 * 60 + 5 : Nat) : Int) = false) →
          (find_active_schedule [w_day1] 3 5).1 = some e ∧
          ∀ s ∈ [w_day1].filter (fun s => s.enabled),
            start_minutes e ≤ start_minutes s)) :=
  ⟨⟨by decide, by decide, by with_unfolding_all decide, by decide, by decide⟩,
    resolve_total_and_gap_default _ 3 5 (by decide) (by decide)
      (by with_unfolding_all decide) (by decide) (by decide)⟩

/-- Counterexample to claim C4 as stated: the table sorted at load can put a
window other than id 1 first.  With both windows of the table below
disabled, resolution self-heals by enabling the FIRST window in table
order, which has id 2, while the window with id 1 stays disabled. -/
theorem selfheal_enables_first_not_id1 :
    (([w_early2_off, w_late1_off].filter (fun s => s.enabled)) = []) ∧
    ((find_active_schedule [w_early2_off, w_late1_off] 12 0).1.map
        (fun s => s.id) = some 2) ∧
    ((find_active_schedule [w_early2_off, w_late1_off] 12 0).2.map
        (fun s => (s.id, s.enabled)) = [(2, true), (1, false)]) := by
  refine ⟨by decide, ?_, ?_⟩ <;> with_unfolding_all decide

/-- Claim C4 as amended: whenever resolution is invoked with zero enabled
windows, the table self-heals by force-enabling the first window in table
order (the earliest-starting window after the load-time sort, which need
not be window id 1), uses only that window as the candidate set, and
returns it. -/
theorem selfheal_enables_first_in_order (s0 : Schedule) (rest : List Schedule)
    (current_hour current_min : Nat)
    (hfe : (s0 :: rest).filter (fun s => s.enabled) = []) :
    find_active_schedule (s0 :: rest) current_hour current_min =
      (some { s0 with enabled := true }, { s0 with enabled := true } :: rest) :=
  find_active_of_filter_nil current_hour current_min hfe

theorem selfheal_enables_first_in_order_witness :
    (([w_early2_off, w_late1_off].filter (fun s => s.enabled)) = []) ∧
    (find_active_schedule [w_early2_off, w_late1_off] 12 0 =
      (some { w_early2_off with enabled := true },
       [{ w_early2_off with enabled := true }, w_late1_off])) :=
  ⟨by decide,
    selfheal_enables_first_in_order _ _ 12 0 (by decide)⟩

/-- Claim C10: when the master switch is false at the start of a tick, the
tick returns the never sentinel (no next wake time) and performs no
resolution, no actuator read, no actuation, and no state change (the
result is independent of the pin read and leaves the state untouched);
a future enable command restarts the loop: it sets the master switch and
registers the timer. -/
theorem tick_disabled_stops (st : LoopState) (current_hour current_min : Nat)
    (pinRead : Option ℚ) (hdis : st.enabled = false) :
    timer_callback st current_hour current_min pinRead =
      { actuation := none, reschedule := false, state := st } ∧
    (cmd_auto_light_enable st).enabled = true ∧
    (cmd_auto_light_enable st).timerRunning = true := by
  refine ⟨?_, ?_, ?_⟩
  · simp [timer_callback, hdis]
  · unfold cmd_auto_light_enable start_auto_check
    by_cases h : st.timerRunning <;> simp [h]
  · unfold cmd_auto_light_enable start_auto_check
    by_cases h : st.timerRunning <;> simp [h]

theorem tick_disabled_stops_witness :
    (st_off.enabled = false) ∧
    (timer_callback st_off 12 30 (some 1) =
      { actuation := none, reschedule := false, state := st_off } ∧
    (cmd_auto_light_enable st_off).enabled = true ∧
    (cmd_auto_light_enable st_off).timerRunning = true) :=
  ⟨rfl, tick_disabled_stops st_off 12 30 (some 1) rfl⟩

/-- Claim C6: the manual check always issues an actuation for the resolved
window's level — with no tolerance comparison, so also when the current
level already equals the target — and unconditionally updates
`last_brightness` and `current_schedule_id` to the resolved window's level
and id. -/
theorem manual_check_unconditional (st : LoopState) (current_hour current_min : Nat)
    (hne : st.schedules ≠ []) :
    ∃ w, (find_active_schedule st.schedules current_hour current_min).1 = some w ∧
      (manual_check st current_hour current_min).1 =
        some { brightness := w.brightness, schedule_name := w.name,
               hour := current_hour, minute := current_min } ∧
      (manual_check st current_hour current_min).2.last_brightness = some w.brightness ∧
      (manual_check st current_hour current_min).2.current_schedule_id = some w.id := by
  obtain ⟨w, hw⟩ := find_active_total st.schedules current_hour current_min hne
  exact ⟨w, hw, by simp [manual_check, hw], by simp [manual_check, hw],
    by simp [manual_check, hw]⟩

theorem manual_check_unconditional_witness :
    (st_run.schedules ≠ []) ∧
    (∃ w, (find_active_schedule st_run.schedules 7 30).1 = some w ∧
      (manual_check st_run 7 30).1 =
        some { brightness := w.brightness, schedule_name := w.name,
               hour := 7, minute := 30 } ∧
      (manual_check st_run 7 30).2.last_brightness = some w.brightness ∧
      (manual_check st_run 7 30).2.current_schedule_id = some w.id) :=
  ⟨by decide, manual_check_unconditional st_run 7 30 (by decide)⟩

/-- Claim C3: on a tick with the master switch on that resolves window `w`
with target level `L` and observes level `C`, an actuation is issued iff
`|L - C| > 0.01`; when issued it carries `L` and the window name and
`last_brightness`/`current_schedule_id` become `L`/`w.id`; when
`|L - C| ≤ 0.01` no actuation is issued and both fields are unchanged. -/
theorem timer_tick_debounce (st : LoopState) (current_hour current_min : Nat)
    (pinRead : Option ℚ) (w : Schedule) (L C : ℚ)
    (hen : st.enabled = true)
    (hres : (find_active_schedule st.schedules current_hour current_min).1 = some w)
    (hL : w.brightness = L)
    (hC : observed_level pinRead st.last_brightness = C) :
    ((timer_callback st current_hour current_min pinRead).actuation ≠ none ↔
        |L - C| > 1 / 100) ∧
    (|L - C| > 1 / 100 →
      (timer_callback st current_hour current_min pinRead).actuation =
        some { brightness := L, schedule_name := w.name,
               hour := current_hour, minute := current_min } ∧
      (timer_callback st current_hour current_min pinRead).state.last_brightness =
        some L ∧
      (timer_callback st current_hour current_min pinRead).state.current_schedule_id =
        some w.id) ∧
    (|L - C| ≤ 1 / 100 →
      (timer_callback st current_hour current_min pinRead).actuation = none ∧
      (timer_callback st current_hour current_min pinRead).state.last_brightness =
        st.last_brightness ∧
      (timer_callback st current_hour current_min pinRead).state.current_schedule_id =
        st.current_schedule_id) := by
  subst hL
  subst hC
  by_cases hd : |w.brightness - observed_level pinRead st.last_brightness| > 1 / 100
  · have hd' : (100 : ℚ)⁻¹ < |w.brightness - observed_level pinRead st.last_brightness| := by
      rwa [gt_iff_lt, one_div] at hd
    refine ⟨?_, fun _ => ?_, fun hle => absurd hd (not_lt.mpr hle)⟩ <;>
      simp [timer_callback, hen, hres, hd']
  · have hd' : ¬ (100 : ℚ)⁻¹ < |w.brightness - observed_level pinRead st.last_brightness| := by
      rwa [gt_iff_lt, one_div] at hd
    refine ⟨?_, fun hgt => absurd hgt hd, fun _ => ?_⟩ <;>
      simp [timer_callback, hen, hres, hd']

theorem timer_tick_debounce_witness :
    (st_run.enabled = true ∧
      (find_active_schedule st_run.schedules 7 30).1 = some w_day1 ∧
      w_day1.brightness = 1 ∧
      observed_level (some 0) st_run.last_brightness = 0) ∧
    (((timer_callback st_run 7 30 (some 0)).actuation ≠ none ↔
        |(1 : ℚ) - 0| > 1 / 100) ∧
      (|(1 : ℚ) - 0| > 1 / 100 →
        (timer_callback st_run 7 30 (some 0)).actuation =
          some { brightness := 1, schedule_name := w_day1.name,
                 hour := 7, minute := 30 } ∧
        (timer_callback st_run 7 30 (some 0)).state.last_brightness = some 1 ∧
        (timer_callback st_run 7 30 (some 0)).state.current_schedule_id =
          some w_day1.id) ∧
      (|(1 : ℚ) - 0| ≤ 1 / 100 →
        (timer_callback st_run 7 30 (some 0)).actuation = none ∧
        (timer_callback st_run 7 30 (some 0)).state.last_brightness =
          st_run.last_brightness ∧
        (timer_callback st_run 7 30 (some 0)).state.current_schedule_id =
          st_run.current_schedule_id)) :=
  ⟨⟨rfl, by with_unfolding_all decide, rfl, rfl⟩,
    timer_tick_debounce st_run 7 30 (some 0) w_day1 1 0 rfl
      (by with_unfolding_all decide) rfl rfl⟩

/-- Claim C5: a disable request while at most one window is enabled is
refused with the "cannot disable last" response and changes nothing; a
disable of one of at least two enabled windows (with the table's ids
distinct, as construction guarantees) succeeds, and every subsequent
resolution on the resulting table never returns a window with the disabled
id. -/
theorem disable_floor_and_exclusion (schedules : List Schedule) (schedule_id : Nat)
    (hid1 : 1 ≤ schedule_id) (hid5 : schedule_id ≤ 5) :
    ((schedules.filter (fun s => s.enabled)).length ≤ 1 →
      cmd_schedule_disable schedules schedule_id = (.cannotDisableLast, schedules)) ∧
    (∀ w ∈ schedules, w.id = schedule_id → w.enabled = true →
      2 ≤ (schedules.filter (fun s => s.enabled)).length →
      ((schedules.map (fun s => s.id)).Nodup) →
      (cmd_schedule_disable schedules schedule_id).1 = .disabledOk w.name ∧
      (∀ hour minute x,
        (find_active_schedule (cmd_schedule_disable schedules schedule_id).2
            hour minute).1 = some x → x.id ≠ schedule_id)) := by
  have hrange : ¬ (schedule_id < 1 ∨ 5 < schedule_id) := by omega
  constructor
  · intro hle
    simp only [cmd_schedule_disable]
    rw [if_neg hrange, if_pos hle]
  · intro w hw hwid hwen hcount hnodup
    obtain ⟨l₁, l₂, rfl⟩ := List.append_of_mem hw
    obtain ⟨hids1, hids2⟩ := ids_nodup_split hnodup
    have h₁ : ∀ s ∈ l₁, s.id ≠ schedule_id := fun s hs => hwid ▸ hids1 s hs
    have h₂ : ∀ s ∈ l₂, s.id ≠ schedule_id := fun s hs => hwid ▸ hids2 s hs
    have hfl : (l₁ ++ w :: l₂).filter (fun s => s.enabled) =
        l₁.filter (fun s => s.enabled) ++ w :: l₂.filter (fun s => s.enabled) := by
      simp [List.filter_append, List.filter_cons, hwen]
    have hcmd : cmd_schedule_disable (l₁ ++ w :: l₂) schedule_id =
        (.disabledOk w.name, l₁ ++ { w with enabled := false } :: l₂) := by
      simp only [cmd_schedule_disable]
      rw [if_neg hrange, if_neg (by
        rw [hfl] at hcount ⊢
        simp only [List.length_append, List.length_cons] at hcount ⊢
        omega)]
      exact disable_loop_found schedule_id h₁ hwid hwen
    have hfl' : (l₁ ++ { w with enabled := false } :: l₂).filter (fun s => s.enabled) =
        l₁.filter (fun s => s.enabled) ++ l₂.filter (fun s => s.enabled) := by
      simp [List.filter_append, List.filter_cons]
    refine ⟨by rw [hcmd], ?_⟩
    intro hour minute x hx
    rw [hcmd] at hx
    have hlen : 1 ≤ (l₁.filter (fun s => s.enabled) ++
        l₂.filter (fun s => s.enabled)).length := by
      rw [hfl] at hcount
      simp only [List.length_append, List.length_cons] at hcount
      simp only [List.length_append]
      omega
    cases hfc : (l₁ ++ { w with enabled := false } :: l₂).filter (fun s => s.enabled) with
    | nil => rw [hfl'] at hfc; rw [hfc] at hlen; simp at hlen
    | cons e es =>
      rw [find_active_of_filter_cons hour minute hfc] at hx
      have hmem : x ∈ (l₁ ++ { w with enabled := false } :: l₂).filter
          (fun s => s.enabled) := by
        rw [hfc]; exact select_from_mem hx
      rw [hfl'] at hmem
      rcases List.mem_append.mp hmem with hm | hm
      · exact h₁ x (List.mem_of_mem_filter hm)
      · exact h₂ x (List.mem_of_mem_filter hm)

theorem disable_floor_and_exclusion_witness :
    (1 ≤ 2 ∧ 2 ≤ 5) ∧
    ((([w_day1, w_eve2].filter (fun s => s.enabled)).length ≤ 1 →
      cmd_schedule_disable [w_day1, w_eve2] 2 = (.cannotDisableLast, [w_day1, w_eve2])) ∧
    (∀ w ∈ [w_day1, w_eve2], w.id = 2 → w.enabled = true →
      2 ≤ (([w_day1, w_eve2].filter (fun s => s.enabled)).length) →
      (([w_day1, w_eve2].map (fun s => s.id)).Nodup) →
      (cmd_schedule_disable [w_day1, w_eve2] 2).1 = .disabledOk w.name ∧
      (∀ hour minute x,
        (find_active_schedule (cmd_schedule_disable [w_day1, w_eve2] 2).2
            hour minute).1 = some x → x.id ≠ 2))) :=
  ⟨⟨by decide, by decide⟩, disable_floor_and_exclusion [w_day1, w_eve2] 2
    (by decide) (by decide)⟩

/-- Counterexample to claim C9 as stated: with a single enabled window, a
disable request for an id absent from the table is answered with the
"cannot disable last remaining window" refusal (the enabled-count check
runs before the id lookup), not with "not found". -/
theorem disable_unknown_id_refusal_counterexample :
    (∀ s ∈ [w_day1], s.id ≠ 3) ∧
    cmd_schedule_disable [w_day1] 3 = (.cannotDisableLast, [w_day1]) ∧
    (ScheduleCmdResult.cannotDisableLast ≠ .notFound 3) := by
  refine ⟨by decide, by decide, by decide⟩

/-- Claim C9 as amended: for an enable or disable request whose window id
(within the accepted command range 1..5) is not present in the table, no
window's enabled flag changes; the enable request reports "not found"; the
disable request reports "not found" when at least two windows are enabled,
but reports the "cannot disable last" refusal when at most one is enabled,
because the count check precedes the lookup. -/
theorem unknown_id_commands (schedules : List Schedule) (schedule_id : Nat)
    (hid1 : 1 ≤ schedule_id) (hid5 : schedule_id ≤ 5)
    (habs : ∀ s ∈ schedules, s.id ≠ schedule_id) :
    cmd_schedule_enable schedules schedule_id = (.notFound schedule_id, schedules) ∧
    (cmd_schedule_disable schedules schedule_id).2 = schedules ∧
    ((schedules.filter (fun s => s.enabled)).length ≤ 1 →
      (cmd_schedule_disable schedules schedule_id).1 = .cannotDisableLast) ∧
    (2 ≤ (schedules.filter (fun s => s.enabled)).length →
      (cmd_schedule_disable schedules schedule_id).1 = .notFound schedule_id) := by
  have hrange : ¬ (schedule_id < 1 ∨ 5 < schedule_id) := by omega
  have hdis : cmd_schedule_disable schedules schedule_id =
      if (schedules.filter (fun s => s.enabled)).length ≤ 1 then
        (.cannotDisableLast, schedules)
      else (.notFound schedule_id, schedules) := by
    simp only [cmd_schedule_disable]
    rw [if_neg hrange]
    by_cases hle : (schedules.filter (fun s => s.enabled)).length ≤ 1
    · rw [if_pos hle, if_pos hle]
    · rw [if_neg hle, if_neg hle, disable_loop_not_found habs]
  refine ⟨?_, ?_, ?_, ?_⟩
  · simp only [cmd_schedule_enable]
    rw [if_neg hrange, enable_loop_not_found habs]
  · rw [hdis]
    by_cases hle : (schedules.filter (fun s => s.enabled)).length ≤ 1
    · rw [if_pos hle]
    · rw [if_neg hle]
  · intro hle
    rw [hdis, if_pos hle]
  · intro hge
    rw [hdis, if_neg (by omega)]

theorem unknown_id_commands_witness :
    (1 ≤ 3 ∧ 3 ≤ 5 ∧ (∀ s ∈ [w_day1], s.id ≠ 3)) ∧
    (cmd_schedule_enable [w_day1] 3 = (.notFound 3, [w_day1]) ∧
    (cmd_schedule_disable [w_day1] 3).2 = [w_day1] ∧
    ((([w_day1].filter (fun s => s.enabled)).length ≤ 1) →
      (cmd_schedule_disable [w_day1] 3).1 = .cannotDisableLast) ∧
    (2 ≤ (([w_day1].filter (fun s => s.enabled)).length) →
      (cmd_schedule_disable [w_day1] 3).1 = .notFound 3)) :=
  ⟨⟨by decide, by decide, by decide⟩,
    unknown_id_commands [w_day1] 3 (by decide) (by decide) (by decide)⟩

/-- Counterexample to claim C7 as stated: a configuration defining only
`schedule_2` loads to a table of one window whose id is 2, so a table of
`N = 1` windows does not carry exactly the ids `{1}`. -/
theorem load_ids_slot_counterexample :
    ((load_schedules cfg_slot2_only).map (fun l => l.map (fun s => s.id)) = some [2]) ∧
    ([2] ≠ [1]) := by
  exact ⟨by with_unfolding_all decide, by decide⟩

/-- Claim C7 as amended: at configuration load each defined slot
`schedule_i` yields a window with id `i`, so the table's ids are exactly
the defined slot numbers among 1..5 (which equal `{1..N}` only when the
first `N` slots are the defined ones), and the table is stably sorted
ascending by start minutes: pairwise, starts increase, and windows with
equal starts keep increasing slot order. -/
theorem load_slot_ids_and_stable_sort (cfg : Nat → Option String) (L : List Schedule)
    (hok : load_schedules cfg = some L) :
    ((L.map (fun s => s.id)).Perm (definedSlots cfg)) ∧
    L.Pairwise (fun a b => start_minutes a < start_minutes b ∨
      (start_minutes a = start_minutes b ∧ a.id < b.id)) := by
  unfold load_schedules at hok
  split at hok
  · exact absurd hok (by simp)
  · exact absurd hok (by simp)
  · rename_i o ws hne hls
    simp only [Option.some.injEq] at hok
    subst hok
    have hmap := loadSlots_map_id hls
    have hperm := sortSchedules_perm ws
    constructor
    · have hp2 := hperm.map (fun s => s.id)
      rw [hmap] at hp2
      simpa [definedSlots] using hp2
    · apply sortSchedules_pairwise
      have hpw : (ws.map (fun s => s.id)).Pairwise (fun a b => a < b) := by
        rw [hmap]
        exact List.Pairwise.filter _ (by decide)
      exact List.pairwise_map.mp hpw

theorem load_slot_ids_and_stable_sort_witness :
    (load_schedules cfg_slot2_only = some [w_day2]) ∧
    ((([w_day2].map (fun s => s.id)).Perm (definedSlots cfg_slot2_only)) ∧
      [w_day2].Pairwise (fun a b => start_minutes a < start_minutes b ∨
        (start_minutes a = start_minutes b ∧ a.id < b.id))) :=
  ⟨by with_unfolding_all decide,
    load_slot_ids_and_stable_sort cfg_slot2_only [w_day2]
      (by with_unfolding_all decide)⟩

/-- Counterexample to claim C8 as stated: the window specification
"25:00-26:61=0.5", whose hour token 25 and minute token 61 are out of
range, parses successfully instead of failing with a `ConfigError` — the
code range-checks only the brightness. -/
theorem parse_out_of_range_accepted :
    parse_schedule 1 "25:00-26:61=0.5" ≠ none := by
  with_unfolding_all decide

/-- Claim C8 as amended: parsing a window specification in which any
hour or minute token — of the start time or of the end time — is a
non-integer (a token `int()` rejects) fails with a `ConfigError` at load
time, but integer tokens are NOT range-checked: out-of-range values such
as "25:00-26:61=0.5" are accepted and stored unchanged. -/
theorem parse_noninteger_fails_range_unchecked :
    (∀ (i : Nat) (str : String) (t b st et sh sm : List Char),
      splitOnChar '=' str.toList = [t, b] →
      splitOnChar '-' t = [st, et] →
      splitOnChar ':' st = [sh, sm] →
      pyInt sh = none ∨ pyInt sm = none →
      parse_schedule i str = none) ∧
    (∀ (i : Nat) (str : String) (t b st et eh em : List Char),
      splitOnChar '=' str.toList = [t, b] →
      splitOnChar '-' t = [st, et] →
      splitOnChar ':' et = [eh, em] →
      pyInt eh = none ∨ pyInt em = none →
      parse_schedule i str = none) ∧
    parse_schedule 1 "25:00-26:61=0.5" = some w_overflow := by
  refine ⟨?_, ?_, by with_unfolding_all decide⟩
  · intro i str t b st et sh sm h1 h2 h3 h4
    unfold parse_schedule
    simp only [h1, h2, h3]
    rcases het : splitOnChar ':' et with _ | ⟨eh, _ | ⟨em, _ | ⟨c, cs⟩⟩⟩ <;>
      rcases h4 with h4 | h4 <;>
      rcases hsh : pyInt sh with _ | vh <;>
      rcases hsm : pyInt sm with _ | vm <;>
      simp_all
  · intro i str t b st et eh em h1 h2 h3 h4
    unfold parse_schedule
    simp only [h1, h2, h3]
    rcases hst : splitOnChar ':' st with _ | ⟨a, sr⟩
    · simp_all
    · rcases sr with _ | ⟨c, sr2⟩
      · simp_all
      · rcases sr2 with _ | ⟨d, ds⟩
        · rcases h4 with h4 | h4 <;>
            rcases ha : pyInt a with _ | va <;>
            rcases hc : pyInt c with _ | vc <;>
            rcases he : pyInt eh with _ | ve <;>
            simp_all
        · simp_all

theorem parse_noninteger_fails_range_unchecked_witness :
    ((splitOnChar '=' "07:0x-14:00=1.0".toList =
          ["07:0x-14:00".toList, "1.0".toList] ∧
        splitOnChar '-' "07:0x-14:00".toList =
          ["07:0x".toList, "14:00".toList] ∧
        splitOnChar ':' "07:0x".toList = ["07".toList, "0x".toList] ∧
        (pyInt "07".toList = none ∨ pyInt "0x".toList = none)) ∧
      parse_schedule 1 "07:0x-14:00=1.0" = none) ∧
    ((splitOnChar '=' "07:00-14:0x=1.0".toList =
          ["07:00-14:0x".toList, "1.0".toList] ∧
        splitOnChar '-' "07:00-14:0x".toList =
          ["07:00".toList, "14:0x".toList] ∧
        splitOnChar ':' "14:0x".toList = ["14".toList, "0x".toList] ∧
        (pyInt "14".toList = none ∨ pyInt "0x".toList = none)) ∧
      parse_schedule 1 "07:00-14:0x=1.0" = none) :=
  ⟨⟨⟨by decide, by decide, by decide, Or.inr (by decide)⟩,
    parse_noninteger_fails_range_unchecked.1 1 "07:0x-14:00=1.0"
      "07:0x-14:00".toList "1.0".toList "07:0x".toList "14:00".toList
      "07".toList "0x".toList
      (by decide) (by decide) (by decide) (Or.inr (by decide))⟩,
   ⟨⟨by decide, by decide, by decide, Or.inr (by decide)⟩,
    parse_noninteger_fails_range_unchecked.2.1 1 "07:00-14:0x=1.0"
      "07:00-14:0x".toList "1.0".toList "07:00".toList "14:0x".toList
      "14".toList "0x".toList
      (by decide) (by decide) (by decide) (Or.inr (by decide))⟩⟩

end AutoLight
